import Mathlib

/-!
# Verification of the autoPostWp feature-extraction and upload pipeline

Shallow embedding of the feature/attribute extraction cascade of
`scraper-wordpress.js` (`scrapeWordPressSite`) and `scraper-custom.js`
(`scrapeCustomSite`), of the feature mapping and SKU-conflict retry of
`uploader.js` (`uploadProduct`), and of the image pipeline
(`processAndUploadImages`).

Pure text processing (JavaScript `String.prototype.split` with the exact
regexes of the source, prefix stripping, trimming, filtering,
`[...new Set(...)]` deduplication) is embedded executably.  DOM queries
(`querySelector`, `textContent` of matched nodes) and the regex anchor
captures of the labeled-pattern strategies are abstracted as explicit
page-data fields, faithfully keeping every guard and every filter of the
source around them.
-/

/-- JavaScript `\s` / `trim` whitespace, restricted to the code points that can
occur in the scraped text handled by this repository. -/
def isJsSpace (c : Char) : Bool :=
  c == ' ' || c == '\t' || c == '\n' || c == '\r' || c == '\x0b' ||
  c == '\x0c' || c == ' '

/-- JavaScript `String.prototype.trim` on a character list. -/
def jsTrim (l : List Char) : List Char :=
  ((l.dropWhile isJsSpace).reverse.dropWhile isJsSpace).reverse

/-- JavaScript `s.trim()`. -/
def jsTrimStr (s : String) : String := ⟨jsTrim s.data⟩

/-- Continuation of the regex `\d+\.`: after the first digit, further digits
then a literal dot. -/
def digitsThenDot : List Char → Bool
  | [] => false
  | c :: rest => if c.isDigit then digitsThenDot rest else c == '.'

/-- Does the text start with a numeric marker `\d+\.` (the lookahead
`(?=\d+\.)` of the split regexes)? -/
def startsNumDot : List Char → Bool
  | [] => false
  | c :: rest => c.isDigit && digitsThenDot rest

/-- Does the text start with a bullet glyph (the lookahead `(?=[•\-\*])`)? -/
def startsBullet : List Char → Bool
  | [] => false
  | c :: _ => c == '•' || c == '-' || c == '*'

/-- JavaScript `f.replace(/^\d+\.?\s*/, '')`. -/
def stripNumMarker (l : List Char) : List Char :=
  match l with
  | [] => []
  | c :: _ =>
    if c.isDigit then
      let r := l.dropWhile Char.isDigit
      let r := match r with
        | '.' :: t => t
        | _ => r
      r.dropWhile isJsSpace
    else l

/-- JavaScript `f.replace(/^[•\-\*]\s*/, '')`. -/
def stripBulletMarker (l : List Char) : List Char :=
  match l with
  | [] => []
  | c :: t =>
    if c == '•' || c == '-' || c == '*' then t.dropWhile isJsSpace
    else l

/-- The per-segment cleanup of every split site in the source:
`.map(f => f.replace(/^\d+\.?\s*/, '').replace(/^[•\-\*]\s*/, '').trim())`. -/
def cleanSegment (s : String) : String :=
  ⟨jsTrim (stripBulletMarker (stripNumMarker s.data))⟩

/-- Substring test, JavaScript `s.includes(pat)`. -/
def strContainsSub (s pat : String) : Bool :=
  s.data.tails.any (fun t => pat.data.isPrefixOf t)

/-- JavaScript truthiness of a possibly-absent string field. -/
def strTruthy : Option String → Bool
  | none => false
  | some s => !s.isEmpty

/-- Configuration of one of the source's split regexes: whether `\n` is a
consumed delimiter, and which keyword words act as zero-width lookahead
delimiters (`(?=موتور|…)`).  The numeric-marker and bullet lookaheads are
present in every split regex of the source. -/
structure SplitCfg where
  newline : Bool
  keywords : List (List Char)
deriving DecidableEq

/-- Is there a zero-width (lookahead) delimiter match at this position? -/
def zeroWidthAt (cfg : SplitCfg) (l : List Char) : Bool :=
  startsNumDot l || startsBullet l ||
  cfg.keywords.any (fun kw => kw.isPrefixOf l)

/-- Core of JavaScript `String.prototype.split` for the source's delimiter
regexes.  `cur` holds the current segment reversed.  Per the ECMAScript
split algorithm, a zero-width match at the start of the current segment is
skipped, and a zero-width match elsewhere ends the segment without
consuming anything (the delimiter starts the next segment). -/
def splitGo (cfg : SplitCfg) : List Char → List Char → List (List Char)
  | cur, [] => [cur.reverse]
  | cur, c :: rest =>
    if cfg.newline && c == '\n' then
      cur.reverse :: splitGo cfg [] rest
    else if !cur.isEmpty && zeroWidthAt cfg (c :: rest) then
      cur.reverse :: splitGo cfg [c] rest
    else
      splitGo cfg (c :: cur) rest

/-- JavaScript `s.split(regex)` for the source's split regexes. -/
def jsSplit (cfg : SplitCfg) (s : String) : List String :=
  (splitGo cfg [] s.data).map fun l => ⟨l⟩

example : jsSplit ⟨true, []⟩ "a\nb" = ["a", "b"] := by decide
example : jsSplit ⟨true, []⟩ "1. Fast charging 2. Waterproof" =
    ["1. Fast charging ", "2. Waterproof"] := by decide
example : jsSplit ⟨true, []⟩ "ab•cd" = ["ab", "•cd"] := by decide
example : jsSplit ⟨true, []⟩ "" = [""] := by decide
example : cleanSegment "2. Waterproof" = "Waterproof" := by decide
example : cleanSegment "• abc " = "abc" := by decide

/-! ## Vocabulary of the source's regexes -/

/-- The eleven domain keyword hints of the WordPress labeled-pattern split
regex (scraper-wordpress.js line 248):
`موتور|سرعت|تیغه|باتری|شارژ|وزن|ابعاد|جنس|دارای|مجهز|مناسب`. -/
def hintWords : List String :=
  ["موتور", "سرعت", "تیغه", "باتری", "شارژ", "وزن", "ابعاد", "جنس",
   "دارای", "مجهز", "مناسب"]

/-- The extended keyword list of the WordPress short-description split when
the anchor matched (line 301): the eleven hints plus
`طول|ظرفیت|زمان|توان|دارد|است|می|باشد`. -/
def wpShortHintsA : List String :=
  hintWords ++ ["طول", "ظرفیت", "زمان", "توان", "دارد", "است", "می", "باشد"]

/-- The keyword list of the WordPress short-description split without an
anchor match (line 312): the eleven hints plus `طول|ظرفیت|زمان|توان`. -/
def wpShortHintsB : List String :=
  hintWords ++ ["طول", "ظرفیت", "زمان", "توان"]

/-- The six stop words shared by every stop-phrase filter of the source:
brand, category, price, in stock, quantity, add (to cart). -/
def stop6 : List String :=
  ["برند", "دسته", "قیمت", "موجود", "تعداد", "افزودن"]

/-- The seven-word stop list (`…|پشتیبانی`, adds "support"). -/
def stop7 : List String := stop6 ++ ["پشتیبانی"]

/-- The eight-word stop list (`…|پشتیبانی|ویژگی`, adds "feature"). -/
def stop8 : List String := stop7 ++ ["ویژگی"]

/-- String prefix test on the underlying character lists (JavaScript anchored
`^word` matching). -/
def strStartsWith (f pre : String) : Bool :=
  pre.data.isPrefixOf f.data

/-- JavaScript `f.match(/^(w1|w2|…)/i)` truthiness (with `withDollar` for the
variants whose alternation ends in `|$`, which additionally matches the empty
string). -/
def stopMatch (stops : List String) (withDollar : Bool) (f : String) : Bool :=
  stops.any (fun s => strStartsWith f s) || (withDollar && f.isEmpty)

/-! ## The split configurations of the source's five split sites -/

/-- scraper-wordpress.js line 248 (labeled-pattern span):
`\n|(?=\d+\.)|(?=[•\-\*])|(?=موتور|…|مناسب)`. -/
def wpLabCfg : SplitCfg := ⟨true, hintWords.map String.data⟩

/-- scraper-custom.js line 234 (labeled-pattern span):
`\n|(?=\d+\.)|(?=[•\-\*])` — no keyword lookahead. -/
def customLabCfg : SplitCfg := ⟨true, []⟩

/-- scraper-wordpress.js line 301 (short description, anchor matched):
`(?=\d+\.)|(?=[•\-\*])|(?=موتور|…|باشد)` — no `\n` alternative. -/
def wpShortCfgA : SplitCfg := ⟨false, wpShortHintsA.map String.data⟩

/-- scraper-wordpress.js line 312 (short description, no anchor):
`(?=\d+\.)|(?=[•\-\*])|(?=موتور|…|توان)` — no `\n` alternative. -/
def wpShortCfgB : SplitCfg := ⟨false, wpShortHintsB.map String.data⟩

/-- scraper-custom.js line 280 (short description):
`\n|(?=\d+\.)|(?=[•\-\*])`. -/
def customShortCfg : SplitCfg := ⟨true, []⟩

/-! ## The segmentation paths (split + clean + filter) -/

/-- WordPress strategy 2 body (lines 245-250): the captured span is trimmed,
split with keyword hints, cleaned, and filtered by
`f.length > 3 && !f.match(/^(برند|دسته|قیمت|موجود|تعداد|افزودن|پشتیبانی|ویژگی|$)/i)`. -/
def wpLabeledSeg (span : String) : List String :=
  ((jsSplit wpLabCfg (jsTrimStr span)).map cleanSegment).filter
    (fun f => decide (f.length > 3) && !stopMatch stop8 true f)

/-- Custom-site strategy 2 body (lines 231-236): the captured span is trimmed,
split without keyword hints, cleaned, and filtered by
`f.length > 3 && !f.match(/^(برند|دسته|قیمت|موجود|تعداد|افزودن)/i)`. -/
def customLabeledSeg (span : String) : List String :=
  ((jsSplit customLabCfg (jsTrimStr span)).map cleanSegment).filter
    (fun f => decide (f.length > 3) && !stopMatch stop6 false f)

/-- WordPress strategy 5, anchor branch (lines 298-303): trimmed captured
section, extended keywords, filter `f.length > 5 && !match(stop8|$)`. -/
def wpShortSegA (span : String) : List String :=
  ((jsSplit wpShortCfgA (jsTrimStr span)).map cleanSegment).filter
    (fun f => decide (f.length > 5) && !stopMatch stop8 true f)

/-- WordPress strategy 5, no-anchor branch (lines 311-315): the whole
short-description text (untrimmed), filter `l.length > 5 && !match(stop8|$)`. -/
def wpShortSegB (text : String) : List String :=
  ((jsSplit wpShortCfgB text).map cleanSegment).filter
    (fun f => decide (f.length > 5) && !stopMatch stop8 true f)

/-- Custom-site strategy 5 (lines 279-283): the whole short-description text,
filter `l.length > 5 && !match(/^(برند|…|پشتیبانی|ویژگی)/i)`. -/
def customShortSeg (text : String) : List String :=
  ((jsSplit customShortCfg text).map cleanSegment).filter
    (fun f => decide (f.length > 5) && !stopMatch stop8 false f)

/-- Does the text contain any of the given words (used by WordPress strategy 6
paragraph scan, whose keyword alternatives carry no `^` anchor)? -/
def containsAnyWord (words : List String) (t : String) : Bool :=
  words.any (fun w => strContainsSub t w)

/-- WordPress strategy 6 paragraph test (line 345):
`text.match(/^\d+\.|^[•\-\*]|موتور|…|مناسب/i)`. -/
def looksLikeFeature (t : String) : Bool :=
  startsNumDot t.data || startsBullet t.data || containsAnyWord hintWords t

example : wpLabeledSeg "موتور قوی سرعت بالا" = ["موتور قوی", "سرعت بالا"] := by decide
example : customLabeledSeg "موتور قوی سرعت بالا" = ["موتور قوی سرعت بالا"] := by decide
example : customShortSeg "1. Fast charging 2. Waterproof" =
    ["Fast charging", "Waterproof"] := by decide

/-! ## Deduplication and final cleanup -/

/-- Worker for `dedupFirst`: `seen` collects the values already emitted. -/
def dedupFirstAux (seen : List String) : List String → List String
  | [] => []
  | x :: xs =>
    if decide (x ∈ seen) then dedupFirstAux seen xs
    else x :: dedupFirstAux (x :: seen) xs

/-- `[...new Set(l)]` in JavaScript: duplicates removed, the first occurrence
of each value kept, insertion order otherwise preserved.  Also the semantics
of `l.filter((f, i, self) => self.indexOf(f) === i)` in uploader.js. -/
def dedupFirst (l : List String) : List String :=
  dedupFirstAux [] l

/-- The final cleanup of both scrapers:
`data.features = [...new Set(data.features.filter(f => f && f.length > 3))]`. -/
def finalClean (l : List String) : List String :=
  dedupFirst (l.filter (fun f => !f.isEmpty && decide (f.length > 3)))

example : dedupFirst ["a", "b", "a", "c", "b"] = ["a", "b", "c"] := by decide

/-! ## The WordPress cascade (scrapeWordPressSite, lines 216-354)

DOM-derived data is abstracted as fields of `WpPage`: the strategy-1
selector scan only records whether a features container was found
(`containerFound`); the `querySelectorAll` text contents of strategies 3, 4
and 6 are the fields `descListItems`, `containerItems`, `olItems` and
`paragraphs`; the regex anchor captures of strategies 2 and 5 (group 1 of the
`ویژگی های محصول` anchors) are `capturedSpan` and `shortDescSpan`.  The
`isInExcludedSection` tests of strategies 3, 4 and the item `querySelectorAll`
scans are folded into those fields: each holds the items that survive the DOM
query.  All guards, segmentation, filtering and cleanup around them follow
the source. -/

structure WpPage where
  description : String
  short_description : String
  containerFound : Bool
  capturedSpan : Option String
  descListItems : List String
  containerItems : List String
  shortDescSpan : Option String
  olItems : List String
  paragraphs : List String
deriving DecidableEq

/-- Strategy 2 (lines 238-255): labeled pattern over the container text;
runs only when the capture group is truthy (non-empty). -/
def wpS2 (p : WpPage) : List String :=
  match p.capturedSpan with
  | none => []
  | some sp => if sp.isEmpty then [] else wpLabeledSeg sp

/-- Strategy 3 (lines 257-277): markup items inside
`data.description || data.short_description`, filtered by
`featureText && featureText.length > 3 && !match(stop7)`. -/
def wpS3 (p : WpPage) : List String :=
  let descHTML := if !p.description.isEmpty then p.description
    else p.short_description
  if descHTML.isEmpty then []
  else if p.descListItems.isEmpty then []
  else (p.descListItems.map jsTrimStr).filter
    (fun f => !f.isEmpty && decide (f.length > 3) && !stopMatch stop7 false f)

/-- Strategy 4 (lines 279-288): items of the dedicated features-list element,
filtered only by `featureText && featureText.length > 3` — no stop-phrase
filter. -/
def wpS4 (p : WpPage) : List String :=
  if p.containerFound then
    (p.containerItems.map jsTrimStr).filter
      (fun f => !f.isEmpty && decide (f.length > 3))
  else []

/-- Strategy 5 (lines 290-321): short-description text; the anchor branch and
the no-anchor branch are exclusive (`if (featuresSectionMatch) … else …`). -/
def wpS5 (p : WpPage) : List String :=
  if p.short_description.isEmpty then []
  else match p.shortDescSpan with
    | some sp => wpShortSegA sp
    | none => wpShortSegB p.short_description

/-- Strategy 6 (lines 323-351): list items of the description markup, then
paragraphs that look like features. -/
def wpS6 (p : WpPage) : List String :=
  if p.description.isEmpty then []
  else
    let ol := (p.olItems.map jsTrimStr).filter
      (fun f => !f.isEmpty && decide (f.length > 3) && !stopMatch stop7 false f)
    if !ol.isEmpty then ol
    else (p.paragraphs.map jsTrimStr).filter
      (fun t => looksLikeFeature t && decide (t.length > 5) &&
        !stopMatch stop7 false t)

/-- The strategy cascade of scrapeWordPressSite: each `if (data.features.length
=== 0)` guard of the source makes the first non-empty strategy result win. -/
def wpRaw (p : WpPage) : List String :=
  let s2 := wpS2 p
  if !s2.isEmpty then s2 else
  let s3 := wpS3 p
  if !s3.isEmpty then s3 else
  let s4 := wpS4 p
  if !s4.isEmpty then s4 else
  let s5 := wpS5 p
  if !s5.isEmpty then s5 else wpS6 p

/-- The feature list produced by scrapeWordPressSite (line 354). -/
def wpFeatures (p : WpPage) : List String :=
  finalClean (wpRaw p)

/-! ## The custom-site cascade (scrapeCustomSite, lines 204-292)

Same abstraction; the custom scraper has no strategy 6 and no
excluded-section checks. -/

structure CustomPage where
  description : String
  short_description : String
  containerFound : Bool
  capturedSpan : Option String
  descListItems : List String
  containerItems : List String
deriving DecidableEq

/-- Strategy 2 (lines 226-241). -/
def customS2 (p : CustomPage) : List String :=
  match p.capturedSpan with
  | none => []
  | some sp => if sp.isEmpty then [] else customLabeledSeg sp

/-- Strategy 3 (lines 243-261), stop list with `پشتیبانی`. -/
def customS3 (p : CustomPage) : List String :=
  let descHTML := if !p.description.isEmpty then p.description
    else p.short_description
  if descHTML.isEmpty then []
  else if p.descListItems.isEmpty then []
  else (p.descListItems.map jsTrimStr).filter
    (fun f => !f.isEmpty && decide (f.length > 3) && !stopMatch stop7 false f)

/-- Strategy 4 (lines 263-272): dedicated features-list items, length filter
only. -/
def customS4 (p : CustomPage) : List String :=
  if p.containerFound then
    (p.containerItems.map jsTrimStr).filter
      (fun f => !f.isEmpty && decide (f.length > 3))
  else []

/-- Strategy 5 (lines 275-288). -/
def customS5 (p : CustomPage) : List String :=
  if p.short_description.isEmpty then []
  else customShortSeg p.short_description

/-- The strategy cascade of scrapeCustomSite. -/
def customRaw (p : CustomPage) : List String :=
  let s2 := customS2 p
  if !s2.isEmpty then s2 else
  let s3 := customS3 p
  if !s3.isEmpty then s3 else
  let s4 := customS4 p
  if !s4.isEmpty then s4 else customS5 p

/-- The feature list produced by scrapeCustomSite (line 291). -/
def customFeatures (p : CustomPage) : List String :=
  finalClean (customRaw p)

/-! ## The uploader (uploadProduct, uploader.js)

`Option` fields model JavaScript object fields that the source adds
conditionally (absent vs present). -/

structure WooAttribute where
  id : Nat
  name : String
  options : List String
  visible : Bool
  variation : Bool
deriving DecidableEq

/-- One `meta_data` entry; `value` holds the `{ftitle, fdesc}` pairs. -/
structure MetaEntry where
  key : String
  value : List (String × String)
deriving DecidableEq

structure WooProduct where
  name : String
  regular_price : Option String
  sale_price : Option String
  description : Option String
  short_description : Option String
  sku : Option String
  images : List String
  categories : List Nat
  attributes : Option (List WooAttribute)
  meta_data : Option (List MetaEntry)
deriving DecidableEq

/-- The scraped product bundle handed to the uploader.  `categories` stands
for the category ids already resolved by the (abstracted) API lookups. -/
structure ProductData where
  name : String
  description : String
  short_description : String
  regular_price : String
  sale_price : String
  sku : String
  images : List String
  categories : List Nat
  features : List String
deriving DecidableEq

/-- uploader.js lines 189-192: `productData.features.map(f => f.trim())
.filter(f => f && f.length > 0).filter((f, i, self) => self.indexOf(f) === i)`. -/
def uploadClean (fs : List String) : List String :=
  dedupFirst ((fs.map jsTrimStr).filter
    (fun f => !f.isEmpty && decide (f.length > 0)))

/-- uploader.js lines 229-231: `'<h3>ویژگی های محصول:</h3><ul>' +
allFeatures.map(f => '<li>' + escaped + '</li>').join('') + '</ul>'`, with
`<` and `>` HTML-escaped. -/
def htmlEscape (s : String) : String :=
  ⟨s.data.flatMap fun c =>
    if c == '<' then "&lt;".data
    else if c == '>' then "&gt;".data
    else [c]⟩

def featuresHTML (allFeatures : List String) : String :=
  "<h3>ویژگی های محصول:</h3><ul>" ++
  String.join (allFeatures.map (fun f => "<li>" ++ htmlEscape f ++ "</li>")) ++
  "</ul>"

/-- uploader.js lines 187-253: the feature branch of uploadProduct.  When
`productData.features` is non-empty it cleans the list, attaches the
`dina_product_features` meta entry and the single `ویژگی های محصول`
attribute, prepends the rendered HTML to the description, and prepends the
first five features to the short description unless it already contains the
substring `ویژگی`. -/
def mapFeatures (p : WooProduct) (features : List String) : WooProduct :=
  if features.isEmpty then p
  else
    let allFeatures := uploadClean features
    let html := featuresHTML allFeatures
    let p1 : WooProduct :=
      { p with
        meta_data := some [⟨"dina_product_features",
          allFeatures.map (fun f => (f, ""))⟩],
        attributes := some [⟨0, "ویژگی های محصول", allFeatures, true, false⟩],
        description := some (match p.description with
          | some d => if d.isEmpty then html else html ++ "<br><br>" ++ d
          | none => html) }
    if strTruthy p.short_description &&
        strContainsSub (p.short_description.getD "") "ویژگی" then p1
    else
      let shortFeatures := String.intercalate "، " (allFeatures.take 5)
      { p1 with
        short_description := some (match p.short_description with
          | some s =>
            if s.isEmpty then shortFeatures
            else shortFeatures ++ " - " ++ s
          | none => shortFeatures) }

/-- uploader.js lines 100-184: the base payload built before the feature
branch.  The duplicate-SKU lookup (`GET /products?sku=…`) is abstracted as
`skuTaken`. -/
def buildBase (pd : ProductData) (skuTaken : Bool) : WooProduct :=
  { name := if pd.name.isEmpty then "Untitled Product" else pd.name
    regular_price :=
      if pd.regular_price.isEmpty || pd.regular_price == "0" then none
      else some pd.regular_price
    sale_price := if pd.sale_price.isEmpty then none else some pd.sale_price
    description :=
      if pd.description.isEmpty then none
      else if decide (pd.description.length > 700) then none
      else some pd.description
    short_description :=
      if decide (pd.short_description.length > 200) then none
      else some pd.short_description
    sku := if !pd.sku.isEmpty && !skuTaken then some pd.sku else none
    images := pd.images
    categories := pd.categories
    attributes := none
    meta_data := none }

/-- The full outgoing payload: base fields then the feature mapping. -/
def buildProduct (pd : ProductData) (skuTaken : Bool) : WooProduct :=
  mapFeatures (buildBase pd skuTaken) pd.features

/-! ## SKU-conflict retry (uploader.js lines 269-294) -/

/-- The error information the retry logic inspects:
`firstError.response.status`, `errorData.code`, and whether
`errorData.message` contains the substring `SKU`. -/
structure ApiError where
  status : Nat
  code : String
  msgMentionsSku : Bool
deriving DecidableEq

/-- Line 275-277: `firstError.response.status === 400 && (errorData.code ===
'product_invalid_sku' || errorData.message?.includes('SKU'))`. -/
def isSkuConflict (e : ApiError) : Bool :=
  e.status == 400 && (e.code == "product_invalid_sku" || e.msgMentionsSku)

/-- Line 280: `delete wooCommerceProduct.sku`. -/
def withoutSku (p : WooProduct) : WooProduct := { p with sku := none }

/-- The POST-with-retry flow: `api` is the platform's response to a payload;
the returned list records every payload actually POSTed, in order, and the
`Except` is the surfaced outcome (created product id, or error). -/
def postProductWithRetry (api : WooProduct → Except ApiError Nat)
    (p : WooProduct) : List WooProduct × Except ApiError Nat :=
  match api p with
  | .ok v => ([p], .ok v)
  | .error e =>
    if isSkuConflict e then
      match api (withoutSku p) with
      | .ok v => ([p, withoutSku p], .ok v)
      | .error _ => ([p, withoutSku p], .error e)
    else ([p], .error e)

/-! ## Image pipeline (processAndUploadImages) -/

/-- A successful WP media upload (`{id, source_url, filename}`). -/
structure UploadedMedia where
  id : Nat
  source_url : String
  title : String
deriving DecidableEq

/-- One entry of the result list of processAndUploadImages. -/
structure MediaResult where
  id : Option Nat
  src : String
  filename : String
  originalUrl : String
  error : Option String
deriving DecidableEq

/-- JavaScript `imageUrl.split('/').pop()`. -/
def slashSplitGo : List Char → List Char → List (List Char)
  | cur, [] => [cur.reverse]
  | cur, c :: rest =>
    if c == '/' then cur.reverse :: slashSplitGo [] rest
    else slashSplitGo (c :: cur) rest

def lastPathSegment (u : String) : String :=
  ⟨(slashSplitGo [] u.data).getLastD []⟩

/-- processAndUploadImages (lines 87-127): `step` abstracts the download +
watermark removal + media upload of one URL (`Except` carries the caught
error's message).  Each URL yields exactly one result entry; a failure falls
back to the original URL with `id: null` and the error recorded.  The early
`return []` for an empty input coincides with mapping over `[]`. -/
def processAndUploadImages (step : String → Except String UploadedMedia)
    (imageUrls : List String) : List MediaResult :=
  imageUrls.map fun u =>
    match step u with
    | .ok m => ⟨some m.id, m.source_url, m.title, u, none⟩
    | .error msg => ⟨none, u, lastPathSegment u, u, some msg⟩

/-! ## Properties of the deduplication -/

theorem mem_dedupFirstAux {a : String} :
    ∀ {l seen : List String}, a ∈ dedupFirstAux seen l ↔ a ∈ l ∧ a ∉ seen := by
  intro l
  induction l with
  | nil => intro seen; simp [dedupFirstAux]
  | cons x xs ih =>
    intro seen
    by_cases hx : x ∈ seen
    · rw [dedupFirstAux, if_pos (by simpa using hx)]
      rw [ih]
      constructor
      · rintro ⟨h1, h2⟩
        exact ⟨List.mem_cons_of_mem _ h1, h2⟩
      · rintro ⟨h1, h2⟩
        rcases List.mem_cons.mp h1 with rfl | h1
        · exact absurd hx h2
        · exact ⟨h1, h2⟩
    · rw [dedupFirstAux, if_neg (by simpa using hx)]
      simp only [List.mem_cons, ih]
      by_cases hax : a = x
      · subst hax
        simp [hx]
      · tauto

theorem dedupFirstAux_nodup : ∀ (l seen : List String),
    (dedupFirstAux seen l).Nodup := by
  intro l
  induction l with
  | nil => intro seen; simp [dedupFirstAux]
  | cons x xs ih =>
    intro seen
    by_cases hx : x ∈ seen
    · rw [dedupFirstAux, if_pos (by simpa using hx)]
      exact ih seen
    · rw [dedupFirstAux, if_neg (by simpa using hx)]
      refine List.nodup_cons.mpr ⟨fun hmem => ?_, ih (x :: seen)⟩
      exact (mem_dedupFirstAux.mp hmem).2 (List.mem_cons_self x seen)

theorem dedupFirstAux_sublist : ∀ (l seen : List String),
    (dedupFirstAux seen l).Sublist l := by
  intro l
  induction l with
  | nil => intro seen; simp [dedupFirstAux]
  | cons x xs ih =>
    intro seen
    by_cases hx : x ∈ seen
    · rw [dedupFirstAux, if_pos (by simpa using hx)]
      exact (ih seen).trans (List.sublist_cons_self x xs)
    · rw [dedupFirstAux, if_neg (by simpa using hx)]
      exact List.Sublist.cons₂ x (ih (x :: seen))

theorem mem_dedupFirst {a : String} {l : List String} :
    a ∈ dedupFirst l ↔ a ∈ l := by
  rw [dedupFirst, mem_dedupFirstAux]
  simp

theorem dedupFirst_nodup (l : List String) : (dedupFirst l).Nodup :=
  dedupFirstAux_nodup l []

theorem dedupFirst_sublist (l : List String) : (dedupFirst l).Sublist l :=
  dedupFirstAux_sublist l []

/-- Emitted values may be dropped from the rest of the input without changing
the result. -/
theorem dedupFirstAux_filter_seen {a : String} :
    ∀ (l seen : List String), a ∈ seen →
      dedupFirstAux seen l = dedupFirstAux seen (l.filter (fun y => y != a)) := by
  intro l
  induction l with
  | nil => intro seen _; rfl
  | cons x xs ih =>
    intro seen ha
    by_cases hxa : x = a
    · subst hxa
      rw [List.filter_cons_of_neg (by simp)]
      rw [dedupFirstAux, if_pos (by simpa using ha)]
      exact ih seen ha
    · rw [List.filter_cons_of_pos (by simpa using hxa)]
      by_cases hx : x ∈ seen
      · rw [dedupFirstAux, if_pos (by simpa using hx),
          dedupFirstAux, if_pos (by simpa using hx)]
        exact ih seen ha
      · rw [dedupFirstAux, if_neg (by simpa using hx),
          dedupFirstAux, if_neg (by simpa using hx)]
        exact congrArg (x :: ·) (ih (x :: seen) (List.mem_cons_of_mem _ ha))

/-- The seen-set only matters up to membership on the values of the input. -/
theorem dedupFirstAux_congr :
    ∀ (l s1 s2 : List String), (∀ a ∈ l, (a ∈ s1 ↔ a ∈ s2)) →
      dedupFirstAux s1 l = dedupFirstAux s2 l := by
  intro l
  induction l with
  | nil => intro s1 s2 _; rfl
  | cons x xs ih =>
    intro s1 s2 h
    have hx := h x (List.mem_cons_self _ _)
    by_cases hmem : x ∈ s1
    · rw [dedupFirstAux, if_pos (by simpa using hmem),
        dedupFirstAux, if_pos (by simpa using hx.mp hmem)]
      exact ih s1 s2 (fun a ha => h a (List.mem_cons_of_mem _ ha))
    · rw [dedupFirstAux, if_neg (by simpa using hmem),
        dedupFirstAux, if_neg (by simpa using fun hc => hmem (hx.mpr hc))]
      refine congrArg (x :: ·) (ih (x :: s1) (x :: s2) (fun a ha => ?_))
      rw [List.mem_cons, List.mem_cons, h a (List.mem_cons_of_mem _ ha)]

/-- The first occurrence wins: `[...new Set(x :: xs)]` keeps `x` and removes
every later occurrence of `x`. -/
theorem dedupFirst_cons (x : String) (xs : List String) :
    dedupFirst (x :: xs) = x :: dedupFirst (xs.filter (fun y => y != x)) := by
  rw [dedupFirst, dedupFirstAux, if_neg (by simp)]
  rw [dedupFirstAux_filter_seen xs [x] (List.mem_cons_self x [])]
  refine congrArg (x :: ·) (dedupFirstAux_congr _ [x] [] (fun a ha => ?_))
  have : a ≠ x := by
    have := List.of_mem_filter ha
    simpa using this
  simp [this]

/-- A duplicate-free list is left unchanged. -/
theorem dedupFirstAux_eq_self :
    ∀ (l seen : List String), (∀ a ∈ l, a ∉ seen) → l.Nodup →
      dedupFirstAux seen l = l := by
  intro l
  induction l with
  | nil => intro seen _ _; rfl
  | cons x xs ih =>
    intro seen hdisj hnd
    rw [dedupFirstAux, if_neg (by simpa using hdisj x (List.mem_cons_self _ _))]
    refine congrArg (x :: ·) (ih (x :: seen) (fun a ha => ?_)
      (List.nodup_cons.mp hnd).2)
    intro hc
    rcases List.mem_cons.mp hc with rfl | hc
    · exact (List.nodup_cons.mp hnd).1 ha
    · exact hdisj a (List.mem_cons_of_mem _ ha) hc

theorem dedupFirst_eq_self {l : List String} (h : l.Nodup) :
    dedupFirst l = l :=
  dedupFirstAux_eq_self l [] (by simp) h

/-! ## Membership lemmas for the cascades -/

theorem mem_finalClean {f : String} {l : List String} :
    f ∈ finalClean l ↔ f ∈ l ∧ (!f.isEmpty && decide (f.length > 3)) = true := by
  rw [finalClean, mem_dedupFirst, List.mem_filter]

theorem isEmpty_false_of_ne_nil {α : Type} {l : List α} (h : l ≠ []) :
    l.isEmpty = false := by
  cases hs : l with
  | nil => exact absurd hs h
  | cons a t => rfl

theorem wpRaw_of_s2 {p : WpPage} (h : wpS2 p ≠ []) : wpRaw p = wpS2 p := by
  simp [wpRaw, isEmpty_false_of_ne_nil h]

theorem wpRaw_of_s4 {p : WpPage} (h2 : wpS2 p = []) (h3 : wpS3 p = [])
    (h4 : wpS4 p ≠ []) : wpRaw p = wpS4 p := by
  simp [wpRaw, h2, h3, isEmpty_false_of_ne_nil h4]

theorem customRaw_of_s2 {p : CustomPage} (h : customS2 p ≠ []) :
    customRaw p = customS2 p := by
  simp [customRaw, isEmpty_false_of_ne_nil h]

theorem customRaw_of_s4 {p : CustomPage} (h2 : customS2 p = [])
    (h3 : customS3 p = []) (h4 : customS4 p ≠ []) :
    customRaw p = customS4 p := by
  simp [customRaw, h2, h3, isEmpty_false_of_ne_nil h4]

theorem wpRaw_cases {f : String} {p : WpPage} (h : f ∈ wpRaw p) :
    f ∈ wpS2 p ∨ f ∈ wpS3 p ∨ f ∈ wpS4 p ∨ f ∈ wpS5 p ∨ f ∈ wpS6 p := by
  simp only [wpRaw] at h
  split at h
  · exact Or.inl h
  · split at h
    · exact Or.inr (Or.inl h)
    · split at h
      · exact Or.inr (Or.inr (Or.inl h))
      · split at h
        · exact Or.inr (Or.inr (Or.inr (Or.inl h)))
        · exact Or.inr (Or.inr (Or.inr (Or.inr h)))

theorem customRaw_cases {f : String} {p : CustomPage} (h : f ∈ customRaw p) :
    f ∈ customS2 p ∨ f ∈ customS3 p ∨ f ∈ customS4 p ∨ f ∈ customS5 p := by
  simp only [customRaw] at h
  split at h
  · exact Or.inl h
  · split at h
    · exact Or.inr (Or.inl h)
    · split at h
      · exact Or.inr (Or.inr (Or.inl h))
      · exact Or.inr (Or.inr (Or.inr h))

/-! ## Stop-phrase lemmas -/

/-- If the bigger stop list rejects nothing in `f`, no word of a sublist of it
is a prefix of `f`. -/
theorem no_stop_of_subset {small big : List String} {d : Bool} {f : String}
    (hsub : small ⊆ big) (h : stopMatch big d f = false) :
    small.all (fun s => !strStartsWith f s) = true := by
  rw [stopMatch, Bool.or_eq_false_iff, List.any_eq_false] at h
  rw [List.all_eq_true]
  intro s hs
  simpa using h.1 s (hsub hs)

theorem stop6_subset_stop7 : stop6 ⊆ stop7 := List.subset_append_left _ _

theorem stop6_subset_stop8 : stop6 ⊆ stop8 :=
  stop6_subset_stop7.trans (List.subset_append_left _ _)

/-- Entries surviving a filter whose predicate conjoins `!stopMatch stops d f`
carry that fact. -/
theorem stop_false_of_mem_filter {f : String} {l : List String}
    {q : String → Bool} {stops : List String} {d : Bool}
    (h : f ∈ l.filter (fun g => q g && !stopMatch stops d g)) :
    stopMatch stops d f = false := by
  have := List.of_mem_filter h
  rw [Bool.and_eq_true, Bool.not_eq_true'] at this
  exact this.2

theorem wpS2_stop {f : String} {p : WpPage} (h : f ∈ wpS2 p) :
    stopMatch stop8 true f = false := by
  simp only [wpS2, wpLabeledSeg] at h
  repeat' split at h
  all_goals first
    | exact absurd h (List.not_mem_nil f)
    | exact stop_false_of_mem_filter h

theorem wpS3_stop {f : String} {p : WpPage} (h : f ∈ wpS3 p) :
    stopMatch stop7 false f = false := by
  simp only [wpS3] at h
  repeat' split at h
  all_goals first
    | exact absurd h (List.not_mem_nil f)
    | exact stop_false_of_mem_filter h

theorem wpS5_stop {f : String} {p : WpPage} (h : f ∈ wpS5 p) :
    stopMatch stop8 true f = false := by
  simp only [wpS5, wpShortSegA, wpShortSegB] at h
  repeat' split at h
  all_goals first
    | exact absurd h (List.not_mem_nil f)
    | exact stop_false_of_mem_filter h

theorem wpS6_stop {f : String} {p : WpPage} (h : f ∈ wpS6 p) :
    stopMatch stop7 false f = false := by
  simp only [wpS6] at h
  repeat' split at h
  all_goals first
    | exact absurd h (List.not_mem_nil f)
    | exact stop_false_of_mem_filter h

theorem customS2_stop {f : String} {p : CustomPage} (h : f ∈ customS2 p) :
    stopMatch stop6 false f = false := by
  simp only [customS2, customLabeledSeg] at h
  repeat' split at h
  all_goals first
    | exact absurd h (List.not_mem_nil f)
    | exact stop_false_of_mem_filter h

theorem customS3_stop {f : String} {p : CustomPage} (h : f ∈ customS3 p) :
    stopMatch stop7 false f = false := by
  simp only [customS3] at h
  repeat' split at h
  all_goals first
    | exact absurd h (List.not_mem_nil f)
    | exact stop_false_of_mem_filter h

theorem customS5_stop {f : String} {p : CustomPage} (h : f ∈ customS5 p) :
    stopMatch stop8 false f = false := by
  simp only [customS5, customShortSeg] at h
  repeat' split at h
  all_goals first
    | exact absurd h (List.not_mem_nil f)
    | exact stop_false_of_mem_filter h

/-! ## Split-point lemmas for the segmentation -/

/-- A position where the zero-width lookahead matches, inside a segment, ends
the segment: the splitter emits the text accumulated so far. -/
theorem splitGo_emit (cfg : SplitCfg) {cur : List Char} (hcur : cur ≠ [])
    {c : Char} {rest : List Char} (hnl : (cfg.newline && c == '\n') = false)
    (hzw : zeroWidthAt cfg (c :: rest) = true) :
    splitGo cfg cur (c :: rest) = cur.reverse :: splitGo cfg [c] rest := by
  rw [splitGo]
  rw [if_neg (by rw [hnl]; exact Bool.false_ne_true)]
  rw [if_pos (by rw [isEmpty_false_of_ne_nil hcur, hzw]; rfl)]

/-- A keyword of the configuration is a zero-width delimiter wherever it
starts. -/
theorem zeroWidthAt_keyword {cfg : SplitCfg} {kw : List Char}
    (hkw : kw ∈ cfg.keywords) (t : List Char) :
    zeroWidthAt cfg (kw ++ t) = true := by
  rw [zeroWidthAt, Bool.or_eq_true, Bool.or_eq_true]
  refine Or.inr ?_
  rw [List.any_eq_true]
  refine ⟨kw, hkw, ?_⟩
  rw [List.isPrefixOf_iff_prefix]
  exact List.prefix_append kw t

/-- At a keyword occurrence inside a segment, the WordPress labeled-pattern
splitter closes the current segment: the keyword is a split point. -/
theorem splitGo_wpLab_keyword_head {cur : List Char} (hcur : cur ≠ [])
    {c : Char} {cs : List Char} (hmem : (c :: cs) ∈ wpLabCfg.keywords)
    (hc : (c == '\n') = false) (t : List Char) :
    (splitGo wpLabCfg cur ((c :: cs) ++ t)).head? = some cur.reverse := by
  have hzw := zeroWidthAt_keyword hmem t
  rw [List.cons_append] at hzw ⊢
  rw [splitGo_emit wpLabCfg hcur (by simp [wpLabCfg, hc]) hzw]
  rfl

/-- In a configuration without keywords, a position whose character is neither
a digit nor a bullet carries no zero-width delimiter. -/
theorem zeroWidthAt_noKeywords {cfg : SplitCfg} (hkw : cfg.keywords = [])
    {c : Char} (h1 : c.isDigit = false)
    (h2 : (c == '•' || c == '-' || c == '*') = false) (l : List Char) :
    zeroWidthAt cfg (c :: l) = false := by
  rw [zeroWidthAt, hkw]
  simp [startsNumDot, startsBullet, h1, h2]

/-! ## Claims -/

/-- Fixture for claim C1: the dedicated features container holds an item, and
the labeled text pattern also captures a span. -/
def pageC1 : WpPage :=
  { description := "", short_description := "", containerFound := true,
    capturedSpan := some "Fast charging mode", descListItems := [],
    containerItems := ["Battery 2000mAh"], shortDescSpan := none,
    olItems := [], paragraphs := [] }

/-- Claim C1 is false as stated: on a page where the dedicated-container
strategy yields the non-empty result `["Battery 2000mAh"]`, the pipeline's
output is the labeled-pattern strategy's result `["Fast charging mode"]`,
not the container's — the container extraction does not run first. -/
theorem claim_C1_counterexample :
    wpS4 pageC1 = ["Battery 2000mAh"] ∧
    finalClean (wpS4 pageC1) = ["Battery 2000mAh"] ∧
    wpFeatures pageC1 = ["Fast charging mode"] ∧
    wpFeatures pageC1 ≠ finalClean (wpS4 pageC1) := by decide

/-- Claim C1, amended: both pipelines short-circuit through a fixed strategy
order in which the labeled text pattern runs first and the dedicated
container extraction runs after the labeled-pattern and description-markup
strategies.  Whenever the labeled-pattern strategy yields a non-empty
result, the pipeline's output is exactly its normalized output; the
dedicated container's result wins only when the two strategies before it
yield nothing. -/
theorem claim_C1_amended (p : WpPage) (q : CustomPage) :
    (wpS2 p ≠ [] → wpFeatures p = finalClean (wpS2 p)) ∧
    (wpS2 p = [] → wpS3 p = [] → wpS4 p ≠ [] →
      wpFeatures p = finalClean (wpS4 p)) ∧
    (customS2 q ≠ [] → customFeatures q = finalClean (customS2 q)) ∧
    (customS2 q = [] → customS3 q = [] → customS4 q ≠ [] →
      customFeatures q = finalClean (customS4 q)) := by
  refine ⟨fun h => ?_, fun h2 h3 h4 => ?_, fun h => ?_, fun h2 h3 h4 => ?_⟩
  · rw [wpFeatures, wpRaw_of_s2 h]
  · rw [wpFeatures, wpRaw_of_s4 h2 h3 h4]
  · rw [customFeatures, customRaw_of_s2 h]
  · rw [customFeatures, customRaw_of_s4 h2 h3 h4]

/-- Fixture for the C1 witness on the custom pipeline. -/
def cpageC1 : CustomPage :=
  { description := "", short_description := "", containerFound := false,
    capturedSpan := some "Fast charging mode", descListItems := [],
    containerItems := [] }

/-- Concrete instance of the C1 amended theorem: a page whose labeled-pattern
strategy fires. -/
theorem claim_C1_witness :
    wpS2 pageC1 ≠ [] ∧ wpFeatures pageC1 = finalClean (wpS2 pageC1) ∧
    customS2 cpageC1 ≠ [] ∧
    customFeatures cpageC1 = finalClean (customS2 cpageC1) :=
  ⟨by decide, (claim_C1_amended pageC1 cpageC1).1 (by decide), by decide,
   (claim_C1_amended pageC1 cpageC1).2.2.1 (by decide)⟩

/-- Fixture for claim C2: a dedicated features-list whose only item is an
administrative brand label. -/
def pageC2 : WpPage :=
  { description := "", short_description := "", containerFound := true,
    capturedSpan := none, descListItems := [],
    containerItems := ["برند: سامسونگ"], shortDescSpan := none,
    olItems := [], paragraphs := [] }

/-- Claim C2 is false as stated: the dedicated features-list strategy filters
its items only by length, so a produced FeatureList can contain an entry
beginning with the stop-phrase برند ("brand"). -/
theorem claim_C2_counterexample :
    wpFeatures pageC2 = ["برند: سامسونگ"] ∧
    strStartsWith "برند: سامسونگ" "برند" = true := by decide

/-- Claim C2, amended: entries produced by any strategy other than the
dedicated features-list one never begin with one of the six stop words
shared by all stop filters (brand, category, price, in stock, quantity, add
to cart); the dedicated features-list strategy (here made inert by an empty
item set) filters only by length. -/
theorem claim_C2_amended (p : WpPage) (q : CustomPage)
    (hp : p.containerItems = []) (hq : q.containerItems = []) :
    (∀ f ∈ wpFeatures p, stop6.all (fun s => !strStartsWith f s) = true) ∧
    (∀ f ∈ customFeatures q, stop6.all (fun s => !strStartsWith f s) = true) := by
  constructor
  · intro f hf
    have hraw : f ∈ wpRaw p := (mem_finalClean.mp hf).1
    rcases wpRaw_cases hraw with h | h | h | h | h
    · exact no_stop_of_subset stop6_subset_stop8 (wpS2_stop h)
    · exact no_stop_of_subset stop6_subset_stop7 (wpS3_stop h)
    · rw [wpS4, hp] at h
      simp at h
    · exact no_stop_of_subset stop6_subset_stop8 (wpS5_stop h)
    · exact no_stop_of_subset stop6_subset_stop7 (wpS6_stop h)
  · intro f hf
    have hraw : f ∈ customRaw q := (mem_finalClean.mp hf).1
    rcases customRaw_cases hraw with h | h | h | h
    · exact no_stop_of_subset (fun _ hs => hs) (customS2_stop h)
    · exact no_stop_of_subset stop6_subset_stop7 (customS3_stop h)
    · rw [customS4, hq] at h
      simp at h
    · exact no_stop_of_subset stop6_subset_stop8 (customS5_stop h)

/-- Fixtures for the C2 witness: container-free pages with features. -/
def pageC2w : WpPage :=
  { description := "", short_description := "", containerFound := false,
    capturedSpan := some "Fast wireless charging", descListItems := [],
    containerItems := [], shortDescSpan := none, olItems := [],
    paragraphs := [] }

def cpageC2w : CustomPage :=
  { description := "", short_description := "", containerFound := false,
    capturedSpan := some "Fast wireless charging", descListItems := [],
    containerItems := [] }

/-- Concrete instance of the C2 amended theorem on container-free pages. -/
theorem claim_C2_witness :
    pageC2w.containerItems = [] ∧ cpageC2w.containerItems = [] ∧
    (∀ f ∈ wpFeatures pageC2w,
      stop6.all (fun s => !strStartsWith f s) = true) ∧
    (∀ f ∈ customFeatures cpageC2w,
      stop6.all (fun s => !strStartsWith f s) = true) :=
  ⟨rfl, rfl, (claim_C2_amended pageC2w cpageC2w rfl rfl).1,
   (claim_C2_amended pageC2w cpageC2w rfl rfl).2⟩

/-- Claim C3: every produced FeatureList is duplicate-free — its length is
the size of the set of its entries — the first occurrence of a duplicated
entry wins, and the relative order of the survivors is preserved (the output
is a sublist of the length-filtered raw strategy output containing exactly
its values).  Likewise for the uploader's cleaned feature list. -/
theorem claim_C3 (p : WpPage) (q : CustomPage) (fs : List String) :
    (wpFeatures p).Nodup ∧ (customFeatures q).Nodup ∧
    (uploadClean fs).Nodup ∧
    (wpFeatures p).Sublist
      ((wpRaw p).filter (fun f => !f.isEmpty && decide (f.length > 3))) ∧
    (∀ s, s ∈ wpFeatures p ↔
      s ∈ (wpRaw p).filter (fun f => !f.isEmpty && decide (f.length > 3))) ∧
    (customFeatures q).Sublist
      ((customRaw q).filter (fun f => !f.isEmpty && decide (f.length > 3))) ∧
    (∀ s, s ∈ customFeatures q ↔
      s ∈ (customRaw q).filter (fun f => !f.isEmpty && decide (f.length > 3))) ∧
    (∀ (x : String) (xs : List String),
      dedupFirst (x :: xs) = x :: dedupFirst (xs.filter (fun y => y != x))) :=
  ⟨dedupFirst_nodup _, dedupFirst_nodup _, dedupFirst_nodup _,
   dedupFirst_sublist _, fun _ => mem_dedupFirst,
   dedupFirst_sublist _, fun _ => mem_dedupFirst, dedupFirst_cons⟩

/-- Claim C5: mapping an empty FeatureList is the identity on the base
payload — no attributes or meta_data are added and the description fields
are untouched. -/
theorem claim_C5 (base : WooProduct) : mapFeatures base [] = base := rfl

/-- Claim C6 is false as stated: in the custom-site pipeline the
labeled-pattern span is split without the domain keyword hints, so a span
containing the keywords سرعت ("speed") with no newline, numeric marker or
bullet stays a single segment, while the WordPress pipeline splits it at the
keyword boundary. -/
theorem claim_C6_counterexample :
    customLabeledSeg "موتور قوی سرعت بالا" = ["موتور قوی سرعت بالا"] ∧
    wpLabeledSeg "موتور قوی سرعت بالا" = ["موتور قوی", "سرعت بالا"] := by
  decide

/-- Claim C6, amended: in the WordPress pipeline's labeled-pattern
segmentation, a position immediately before a keyword-hint word is a split
point even with no newline, numeric marker or bullet present (the splitter
closes the current segment exactly there); in the custom-site pipeline's
labeled-pattern segmentation a keyword occurrence carries no delimiter at
all — its split regex has no keyword lookahead. -/
theorem claim_C6_amended :
    (∀ (cur : List Char), cur ≠ [] → ∀ kw ∈ hintWords, ∀ (t : List Char),
      (splitGo wpLabCfg cur (kw.data ++ t)).head? = some cur.reverse) ∧
    (∀ kw ∈ hintWords, ∀ (t : List Char),
      zeroWidthAt customLabCfg (kw.data ++ t) = false) := by
  constructor
  · intro cur hcur kw hkw t
    fin_cases hkw <;>
      exact splitGo_wpLab_keyword_head hcur (by decide) (by decide) t
  · intro kw hkw t
    fin_cases hkw <;>
      exact zeroWidthAt_noKeywords rfl (by decide) (by decide) _

/-- Concrete instance of the C6 amended theorem at the keyword سرعت. -/
theorem claim_C6_witness :
    (splitGo wpLabCfg [' ', 'ی', 'و', 'ق'] ("سرعت".data ++ " بالا".data)).head?
      = some [' ', 'ی', 'و', 'ق'].reverse ∧
    zeroWidthAt customLabCfg ("سرعت".data ++ " بالا".data) = false :=
  ⟨claim_C6_amended.1 [' ', 'ی', 'و', 'ق'] (by decide) "سرعت" (by decide) _,
   claim_C6_amended.2 "سرعت" (by decide) _⟩

/-- Claim C7 is false as stated: the short-description segmentation paths keep
only segments of trimmed length greater than 5, so the 5-character segment
"abcde" — trimmed length 4 or more — is dropped there (the labeled-pattern
paths do use the >3 threshold). -/
theorem claim_C7_counterexample :
    cleanSegment "abcde" = "abcde" ∧ "abcde".length = 5 ∧
    jsSplit customShortCfg "abcde" = ["abcde"] ∧
    customShortSeg "abcde" = [] ∧
    jsSplit wpShortCfgB "abcde" = ["abcde"] ∧
    wpShortSegB "abcde" = [] ∧
    customLabeledSeg "abcde" = ["abcde"] := by decide

/-- Claim C7, amended: after splitting and per-segment cleanup, the
labeled-pattern paths keep exactly the segments of length greater than 3
that fail the stop-phrase test, while the short-description paths keep
exactly those of length greater than 5 that fail the stop-phrase test. -/
theorem claim_C7_amended (t f : String) :
    (f ∈ customLabeledSeg t ↔
      f ∈ (jsSplit customLabCfg (jsTrimStr t)).map cleanSegment ∧
        f.length > 3 ∧ stopMatch stop6 false f = false) ∧
    (f ∈ wpLabeledSeg t ↔
      f ∈ (jsSplit wpLabCfg (jsTrimStr t)).map cleanSegment ∧
        f.length > 3 ∧ stopMatch stop8 true f = false) ∧
    (f ∈ customShortSeg t ↔
      f ∈ (jsSplit customShortCfg t).map cleanSegment ∧
        f.length > 5 ∧ stopMatch stop8 false f = false) ∧
    (f ∈ wpShortSegB t ↔
      f ∈ (jsSplit wpShortCfgB t).map cleanSegment ∧
        f.length > 5 ∧ stopMatch stop8 true f = false) := by
  refine ⟨?_, ?_, ?_, ?_⟩ <;>
    simp only [customLabeledSeg, wpLabeledSeg, customShortSeg, wpShortSegB,
      List.mem_filter, Bool.and_eq_true, Bool.not_eq_true', decide_eq_true_eq,
      and_assoc]

/-- Payload fixture for claim C4. -/
def samplePayload : WooProduct :=
  { name := "Sample", regular_price := some "1000", sale_price := none,
    description := none, short_description := some "", sku := some "270341",
    images := [], categories := [], attributes := none, meta_data := none }

/-- Claim C4 is false as stated: a 422 response — in the 400 class — whose
error code signals an invalid SKU is not retried; the source retries only on
status exactly 400, so the single POST's error is surfaced unchanged. -/
theorem claim_C4_counterexample :
    postProductWithRetry (fun _ => .error ⟨422, "product_invalid_sku", true⟩)
        samplePayload =
      ([samplePayload], .error ⟨422, "product_invalid_sku", true⟩) ∧
    400 ≤ 422 ∧ 422 < 500 ∧
    isSkuConflict ⟨422, "product_invalid_sku", true⟩ = false :=
  ⟨rfl, by decide, by decide, by decide⟩

/-- Claim C4, amended: the retry fires exactly on a response of HTTP status
exactly 400 whose error signals a duplicate/invalid SKU; then the payload is
reposted exactly once with only the sku field removed, a retry failure
surfaces the original error, any other failing response is surfaced without
a retry, and a success at any point yields the created product. -/
theorem claim_C4_amended (api : WooProduct → Except ApiError Nat)
    (p : WooProduct) :
    ((withoutSku p).sku = none ∧ (withoutSku p).name = p.name ∧
     (withoutSku p).regular_price = p.regular_price ∧
     (withoutSku p).sale_price = p.sale_price ∧
     (withoutSku p).description = p.description ∧
     (withoutSku p).short_description = p.short_description ∧
     (withoutSku p).images = p.images ∧
     (withoutSku p).categories = p.categories ∧
     (withoutSku p).attributes = p.attributes ∧
     (withoutSku p).meta_data = p.meta_data) ∧
    (∀ v, api p = .ok v → postProductWithRetry api p = ([p], .ok v)) ∧
    (∀ e, api p = .error e → isSkuConflict e = true →
      (postProductWithRetry api p).1 = [p, withoutSku p] ∧
      (∀ v, api (withoutSku p) = .ok v →
        (postProductWithRetry api p).2 = .ok v) ∧
      (∀ e2, api (withoutSku p) = .error e2 →
        (postProductWithRetry api p).2 = .error e)) ∧
    (∀ e, api p = .error e → isSkuConflict e = false →
      postProductWithRetry api p = ([p], .error e)) := by
  refine ⟨⟨rfl, rfl, rfl, rfl, rfl, rfl, rfl, rfl, rfl, rfl⟩,
    fun v hv => ?_, fun e he hc => ?_, fun e he hc => ?_⟩
  · simp [postProductWithRetry, hv]
  · refine ⟨?_, fun v hv2 => ?_, fun e2 he2 => ?_⟩
    · rcases h2 : api (withoutSku p) with e2 | v <;>
        simp [postProductWithRetry, he, hc, h2]
    · simp [postProductWithRetry, he, hc, hv2]
    · simp [postProductWithRetry, he, hc, he2]
  · simp [postProductWithRetry, he, hc]

/-- Platform stub for the C4 witness: rejects any payload carrying a sku with
a 400 duplicate-SKU error, accepts a payload without one. -/
def uploadApi : WooProduct → Except ApiError Nat :=
  fun q => match q.sku with
    | some _ => .error ⟨400, "product_invalid_sku", true⟩
    | none => .ok 77

/-- Platform stub failing with a non-SKU server error. -/
def uploadApiBad : WooProduct → Except ApiError Nat :=
  fun _ => .error ⟨500, "server_error", false⟩

/-- Concrete instance of the C4 amended theorem: a 400 duplicate-SKU error is
retried once without the sku and succeeds; a 500 error is surfaced without a
retry. -/
theorem claim_C4_witness :
    (postProductWithRetry uploadApi samplePayload).1 =
      [samplePayload, withoutSku samplePayload] ∧
    (postProductWithRetry uploadApi samplePayload).2 = .ok 77 ∧
    postProductWithRetry uploadApiBad samplePayload =
      ([samplePayload], .error ⟨500, "server_error", false⟩) :=
  ⟨((claim_C4_amended uploadApi samplePayload).2.2.1 _ rfl (by decide)).1,
   ((claim_C4_amended uploadApi samplePayload).2.2.1 _ rfl (by decide)).2.1
     77 rfl,
   (claim_C4_amended uploadApiBad samplePayload).2.2.2 _ rfl (by decide)⟩

/-! ### Claim C8 helpers -/

theorem length_pos_of_ne_empty {f : String} (h : f ≠ "") : 0 < f.length := by
  rcases f with ⟨d⟩
  cases d with
  | nil => exact absurd rfl h
  | cons c cs => simp [String.length]

theorem isEmpty_false_of_ne_empty {f : String} (h : f ≠ "") :
    f.isEmpty = false := by
  rw [Bool.eq_false_iff]
  intro hc
  exact h ((String.isEmpty_iff f).mp hc)

/-- A feature list that is already trimmed, non-empty-entry and
duplicate-free passes through the uploader's cleanup unchanged. -/
theorem uploadClean_eq_self {fs : List String}
    (hcl : ∀ f ∈ fs, jsTrimStr f = f ∧ f ≠ "") (hnd : fs.Nodup) :
    uploadClean fs = fs := by
  have hmap : fs.map jsTrimStr = fs := by
    have h1 : fs.map jsTrimStr = fs.map id :=
      List.map_congr_left (fun a ha => (hcl a ha).1)
    rw [h1, List.map_id]
  have hfil : ∀ a ∈ fs, (!a.isEmpty && decide (a.length > 0)) = true := by
    intro a ha
    rw [Bool.and_eq_true]
    exact ⟨by rw [isEmpty_false_of_ne_empty (hcl a ha).2]; rfl,
      decide_eq_true (length_pos_of_ne_empty (hcl a ha).2)⟩
  rw [uploadClean, hmap, List.filter_eq_self.mpr hfil, dedupFirst_eq_self hnd]

/-- Claim C8: with a non-empty (already normalized) FeatureList, the mapper
prepends exactly the first five features, joined with the Persian list
separator, to an empty or label-free short description, and leaves a short
description already containing the label substring unchanged. -/
theorem claim_C8 (base : WooProduct) (fs : List String) (hne : fs ≠ [])
    (hcl : ∀ f ∈ fs, jsTrimStr f = f ∧ f ≠ "") (hnd : fs.Nodup) :
    (base.short_description = none →
      (mapFeatures base fs).short_description =
        some (String.intercalate "، " (fs.take 5))) ∧
    (base.short_description = some "" →
      (mapFeatures base fs).short_description =
        some (String.intercalate "، " (fs.take 5))) ∧
    (∀ s, base.short_description = some s → s ≠ "" →
      strContainsSub s "ویژگی" = false →
      (mapFeatures base fs).short_description =
        some (String.intercalate "، " (fs.take 5) ++ " - " ++ s)) ∧
    (∀ s, base.short_description = some s → s ≠ "" →
      strContainsSub s "ویژگی" = true →
      (mapFeatures base fs).short_description = base.short_description) := by
  have hcl' := uploadClean_eq_self hcl hnd
  have hfs : fs.isEmpty = false := isEmpty_false_of_ne_nil hne
  refine ⟨fun h => ?_, fun h => ?_, fun s h hs hcont => ?_,
    fun s h hs hcont => ?_⟩
  · simp [mapFeatures, hfs, h, strTruthy, hcl']
  · simp [mapFeatures, hfs, h, strTruthy, hcl',
      (by decide : ("" : String).isEmpty = true)]
  · simp [mapFeatures, hfs, h, strTruthy, hcl',
      isEmpty_false_of_ne_empty hs, hcont]
  · simp [mapFeatures, hfs, h, strTruthy, hcl',
      isEmpty_false_of_ne_empty hs, hcont]

/-- Base payload fixture for the C8 witness. -/
def baseC8 : WooProduct :=
  { name := "p", regular_price := none, sale_price := none,
    description := none, short_description := none, sku := none,
    images := [], categories := [], attributes := none, meta_data := none }

/-- Concrete instance of claim C8 for an absent, a label-free, and a
label-carrying short description. -/
theorem claim_C8_witness :
    (mapFeatures baseC8 ["Fast charging", "Waterproof"]).short_description =
      some (String.intercalate "، " (["Fast charging", "Waterproof"].take 5)) ∧
    (mapFeatures { baseC8 with short_description := some "small size" }
        ["Fast charging", "Waterproof"]).short_description =
      some (String.intercalate "، " (["Fast charging", "Waterproof"].take 5)
        ++ " - " ++ "small size") ∧
    (mapFeatures { baseC8 with short_description := some "با ویژگی های عالی" }
        ["Fast charging", "Waterproof"]).short_description =
      some "با ویژگی های عالی" :=
  ⟨(claim_C8 baseC8 _ (by decide) (by decide) (by decide)).1 rfl,
   (claim_C8 { baseC8 with short_description := some "small size" } _
     (by decide) (by decide) (by decide)).2.2.1 "small size" rfl (by decide)
     (by decide),
   by
    rw [(claim_C8 { baseC8 with short_description := some "با ویژگی های عالی" }
      ["Fast charging", "Waterproof"] (by decide) (by decide) (by decide)).2.2.2
      "با ویژگی های عالی" rfl (by decide) (by decide)]⟩

/-- Claim C9: the uploader omits the scraped description from the payload
when it exceeds 700 characters and the scraped short description when it
exceeds 200 characters; in the over-limit case, with features present, the
outgoing description is exactly the rendered features fragment. -/
theorem claim_C9 (pd : ProductData) (st : Bool) :
    (pd.description.length > 700 → (buildBase pd st).description = none) ∧
    (pd.short_description.length > 200 →
      (buildBase pd st).short_description = none) ∧
    (pd.description.length > 700 → pd.features ≠ [] →
      (buildProduct pd st).description =
        some (featuresHTML (uploadClean pd.features))) := by
  have hdesc : pd.description.length > 700 →
      (buildBase pd st).description = none := by
    intro h
    by_cases he : pd.description.isEmpty <;> simp [buildBase, he, h]
  refine ⟨hdesc, fun h => ?_, fun h hf => ?_⟩
  · simp [buildBase, h]
  · rw [buildProduct, mapFeatures]
    rw [if_neg (by rw [isEmpty_false_of_ne_nil hf]; exact Bool.false_ne_true)]
    rw [hdesc h]
    split
    · rename_i sp heq
      exact Option.noConfusion heq
    · split <;> rfl

/-- Fixtures for the C9 witness: an over-limit description and short
description. -/
def longText : String := ⟨List.replicate 701 'x'⟩

def longShort : String := ⟨List.replicate 201 'y'⟩

def pdC9 : ProductData :=
  { name := "p", description := longText, short_description := longShort,
    regular_price := "", sale_price := "", sku := "", images := [],
    categories := [], features := ["Fast charging"] }

/-- Concrete instance of claim C9 on an over-limit product. -/
theorem claim_C9_witness :
    (buildBase pdC9 false).description = none ∧
    (buildBase pdC9 false).short_description = none ∧
    (buildProduct pdC9 false).description =
      some (featuresHTML (uploadClean ["Fast charging"])) :=
  have hlen : pdC9.description.length > 700 := by
    show (List.replicate 701 'x').length > 700
    rw [List.length_replicate]
    decide
  have hlen2 : pdC9.short_description.length > 200 := by
    show (List.replicate 201 'y').length > 200
    rw [List.length_replicate]
    decide
  ⟨(claim_C9 pdC9 false).1 hlen, (claim_C9 pdC9 false).2.1 hlen2,
   (claim_C9 pdC9 false).2.2 hlen (by simp [pdC9])⟩

/-- Claim C10: the image pipeline yields exactly one entry per input URL in
order, and a failing image falls back to its original URL with a null media
id and the error message recorded, instead of failing the whole batch. -/
theorem claim_C10 (step : String → Except String UploadedMedia)
    (urls : List String) :
    (processAndUploadImages step urls).length = urls.length ∧
    (processAndUploadImages step urls).map (fun r => r.originalUrl) = urls ∧
    (∀ r ∈ processAndUploadImages step urls, ∀ msg,
      step r.originalUrl = .error msg →
      r.id = none ∧ r.src = r.originalUrl ∧ r.error = some msg) ∧
    (∀ r ∈ processAndUploadImages step urls, ∀ m,
      step r.originalUrl = .ok m →
      r = ⟨some m.id, m.source_url, m.title, r.originalUrl, none⟩) := by
  have hurl : ∀ u : String,
      ((match step u with
        | .ok m => (⟨some m.id, m.source_url, m.title, u, none⟩ : MediaResult)
        | .error msg =>
          ⟨none, u, lastPathSegment u, u, some msg⟩) : MediaResult).originalUrl
        = u := by
    intro u
    rcases step u with msg | m <;> rfl
  refine ⟨?_, ?_, ?_, ?_⟩
  · rw [processAndUploadImages, List.length_map]
  · rw [processAndUploadImages, List.map_map]
    exact (List.map_congr_left (fun u _ => hurl u)).trans (List.map_id urls)
  · intro r hr msg hmsg
    rw [processAndUploadImages] at hr
    rcases List.mem_map.mp hr with ⟨u, hu, rfl⟩
    rw [hurl u] at hmsg
    rcases hs : step u with msg2 | m2
    · simp only [hs, Except.error.injEq] at hmsg
      subst hmsg
      simp [hs]
    · rw [hs] at hmsg
      exact absurd hmsg (by simp)
  · intro r hr m hm
    rw [processAndUploadImages] at hr
    rcases List.mem_map.mp hr with ⟨u, hu, rfl⟩
    rw [hurl u] at hm
    rcases hs : step u with msg2 | m2
    · rw [hs] at hm
      exact absurd hm (by simp)
    · simp only [hs, Except.ok.injEq] at hm
      subst hm
      simp [hs, hurl u]

/-- Image-step stub for the C10 witness: one URL uploads, the other fails. -/
def stepC10 : String → Except String UploadedMedia :=
  fun u => if u == "http://a/x.jpg" then .ok ⟨5, "http://wp/x.jpg", "x.jpg"⟩
    else .error "download failed"

def urlsC10 : List String := ["http://a/x.jpg", "http://b/y.jpg"]

/-- The fallback entry the pipeline produces for the failing URL. -/
def failEntry : MediaResult :=
  ⟨none, "http://b/y.jpg", "y.jpg", "http://b/y.jpg", some "download failed"⟩

/-- Concrete instance of claim C10: two URLs, one upload succeeds and one
fails. -/
theorem claim_C10_witness :
    (processAndUploadImages stepC10 urlsC10).length = urlsC10.length ∧
    (processAndUploadImages stepC10 urlsC10).map (fun r => r.originalUrl) =
      urlsC10 ∧
    (failEntry.id = none ∧ failEntry.src = failEntry.originalUrl ∧
      failEntry.error = some "download failed") :=
  ⟨(claim_C10 stepC10 urlsC10).1, (claim_C10 stepC10 urlsC10).2.1,
   (claim_C10 stepC10 urlsC10).2.2.1 failEntry (by decide)
     "download failed" rfl⟩
